import Mathlib

/-!
Verification of the `fl` geo-aware search microservice.

The repository's core logic is embedded shallowly:
* `readCSV` (src/dump.go) — CSV ingestion of catalog items;
* `replaceIndex` / `bulkInsertItems` (src/db.go) — the index replacement
  protocol against the Elasticsearch store, with the store's answers to each
  call supplied as an explicit oracle (`StoreConn`) and the calls performed
  recorded as a trace (`StoreOp`);
* `search` (src/db.go, latest revision of the file, the one whose multi-match
  covers the fields name, url and img_urls and whose gauss decay is configured
  with offset 5km and scale 10km) — query construction and result decoding,
  with the store's reply supplied as an explicit argument;
* `serveHTTP` (src/endpoint.go) — request validation and dispatch.

External collaborators (the Elasticsearch scoring and ranking machinery,
`strconv.ParseFloat`, `json.Unmarshal` for flat string arrays) are modelled
from the spec's description of their interfaces; each such definition carries
a doc comment saying so.
-/

namespace Fl

/-- An exact decimal number: value `m * 10 ^ e`. Go works with float64;
coordinates are modelled as the exact decimals the dump's numerals denote
(the spec states coordinate preservation "within floating-point tolerance",
which exact decimals satisfy). -/
structure Dec where
  m : ℤ
  e : ℤ
deriving DecidableEq, Repr

/-- The rational value an exact decimal denotes. -/
def Dec.toRat (d : Dec) : ℚ := (d.m : ℚ) * 10 ^ d.e

/-- Geographic coordinate pair, from `type location struct` in src/db.go. -/
structure Location where
  lat : Dec
  lon : Dec
deriving DecidableEq, Repr

/-- A catalog record, from `type item struct` in src/db.go (its JSON tags in
the latest revision are name, location, url, img_urls; an earlier revision
named the Go fields ItemName/ItemURL). -/
structure Item where
  itemName : String
  location : Location
  itemURL : String
  imgURLs : List String
deriving DecidableEq, Repr

/-! ## Decimal parsing and printing

`strconv.ParseFloat` and the number rendering used when a record is
re-serialized. -/

/-- Numeric value of a big-endian list of decimal digit characters. -/
def digitsVal (cs : List Char) : ℕ :=
  Nat.ofDigits 10 ((cs.map fun c => c.toNat - 48).reverse)

/-- Modelled from the spec: the mantissa part of `strconv.ParseFloat`'s
decimal grammar — digits with an optional single point, at least one digit
present. Returns the digits' value, the number of fraction digits and the
unconsumed characters. -/
def parseMantissa (cs : List Char) : Option ((ℕ × ℕ) × List Char) :=
  let ip := cs.takeWhile Char.isDigit
  let rest := cs.dropWhile Char.isDigit
  match rest with
  | '.' :: r =>
    let fp := r.takeWhile Char.isDigit
    let rest2 := r.dropWhile Char.isDigit
    if ip.isEmpty && fp.isEmpty then none
    else some ((digitsVal (ip ++ fp), fp.length), rest2)
  | _ => if ip.isEmpty then none else some ((digitsVal ip, 0), rest)

/-- Modelled from the spec: an optional leading sign, consumed. -/
def parseSign : List Char → Bool × List Char
  | '+' :: t => (false, t)
  | '-' :: t => (true, t)
  | t => (false, t)

/-- Modelled from the spec: the exponent part of `strconv.ParseFloat`'s
decimal grammar — nothing, or e/E, an optional sign and at least one digit
consuming the whole remainder. -/
def parseExp : List Char → Option ℤ
  | [] => some 0
  | c :: r =>
    if c = 'e' ∨ c = 'E' then
      let sgn := parseSign r
      let ed := sgn.2.takeWhile Char.isDigit
      let rest := sgn.2.dropWhile Char.isDigit
      if ed.isEmpty || !rest.isEmpty then none
      else some (if sgn.1 then -(digitsVal ed : ℤ) else (digitsVal ed : ℤ))
    else none

/-- Modelled from the spec: `strconv.ParseFloat` on the decimal fragment of
its grammar (optional sign, digits with optional point, optional exponent);
the special forms Inf/NaN/hex never occur in the catalog dump or requests. -/
def parseFloat (s : String) : Option Dec :=
  (parseMantissa (parseSign s.data).2).bind fun vf =>
    (parseExp vf.2).map fun e =>
      ⟨if (parseSign s.data).1 then -(vf.1.1 : ℤ) else (vf.1.1 : ℤ), e - vf.1.2⟩

/-- The decimal digit character for a digit value below ten. -/
def digitChar (d : ℕ) : Char := Char.ofNat (d + 48)

/-- Little-endian decimal digit characters of a natural number, with fuel
bounding the recursion (structural, so that proofs can evaluate it). -/
def natCharsAux : ℕ → ℕ → List Char
  | 0, _ => []
  | fuel + 1, n => if n = 0 then [] else digitChar (n % 10) :: natCharsAux fuel (n / 10)

/-- Big-endian decimal digit characters of a natural number. -/
def natChars (n : ℕ) : List Char :=
  if n = 0 then ['0'] else (natCharsAux n n).reverse

/-- Decimal string of a natural number, built from its digits. -/
def natStr (n : ℕ) : String := String.mk (natChars n)

/-- Decimal string of an integer. -/
def intStr (n : ℤ) : String :=
  (if n < 0 then "-" else "") ++ natStr n.natAbs

/-- Modelled from the spec: re-serialization of a coordinate as a decimal
numeral `strconv.ParseFloat` accepts (signed mantissa and signed power-of-ten
exponent). -/
def printFloat (d : Dec) : String := intStr d.m ++ "e" ++ intStr d.e

/-! ## JSON string arrays

`json.Unmarshal([]byte(row[4]), &imgURLs)` in src/dump.go, restricted to the
fragment the catalog dump uses. -/

/-- Modelled from the spec: one JSON string — a quote, content characters,
a closing quote. The catalog dump's image references contain no escape
sequences or embedded quotes, so content runs to the next quote. -/
def parseJStr : List Char → Option (String × List Char)
  | '"' :: r =>
    let content := r.takeWhile fun c => c != '"'
    let rest := r.dropWhile fun c => c != '"'
    match rest with
    | '"' :: r2 => some (String.mk content, r2)
    | _ => none
  | _ => none

/-- Modelled from the spec: the non-empty element list of a JSON string
array, comma separated and closed by a bracket that must end the input; the
fuel bounds the recursion by the input length. -/
def parseJElems : ℕ → List Char → Option (List String)
  | 0, _ => none
  | fuel + 1, cs =>
    match parseJStr cs with
    | none => none
    | some (s, rest) =>
      match rest with
      | ']' :: r2 => if r2.isEmpty then some [s] else none
      | ',' :: r2 =>
        match parseJElems fuel r2 with
        | none => none
        | some l => some (s :: l)
      | _ => none

/-- Modelled from the spec: `json.Unmarshal` into a string slice, on the
whitespace- and escape-free fragment of JSON the catalog dump uses. -/
def parseStringArray (s : String) : Option (List String) :=
  match s.data with
  | '[' :: r =>
    match r with
    | ']' :: r2 => if r2.isEmpty then some [] else none
    | _ => parseJElems r.length r
  | _ => none

/-- A JSON string literal for quote-free content. -/
def jstr (s : String) : String := "\"" ++ s ++ "\""

/-- The comma-separated element list of a JSON string array. -/
def printElems : List String → String
  | [] => ""
  | [s] => jstr s
  | s :: rest => jstr s ++ "," ++ printElems rest

/-- Modelled from the spec: re-serialization of an image-reference list as a
JSON string array, preserving order. -/
def printStringArray (l : List String) : String :=
  "[" ++ printElems l ++ "]"

/-! ## Record ingestion — `readCSV` in src/dump.go

The csv reader hands `readCSV` one row (or a read error) at a time until EOF;
the input is that sequence of read results. Go's nil-able item slice is
modelled as an optional list: the code's `items := make([]item, 0)` is the
non-nil empty slice `some []`. -/

/-- One csv read result: a syntax error from the reader, or a row of fields. -/
abbrev ReadResult := Except String (List String)

/-- Go's `%v` rendering of a string slice, used in the 5-column error. -/
def rowStr (row : List String) : String :=
  "[" ++ String.intercalate " " row ++ "]"

/-- The body of `readCSV`'s loop for one read result (src/dump.go lines
29-57): fail on a reader error, a row without exactly 5 columns, an
unparsable latitude or longitude, or an unparsable image list; otherwise
construct the item. -/
def stepParse : ReadResult → Except String Item
  | .error e => .error ("readCSV: error reading record: " ++ e)
  | .ok row =>
    if row.length ≠ 5 then .error ("readCSV: row didn't have 5 columns: " ++ rowStr row)
    else
      let itemName := row.getD 0 ""
      match parseFloat (row.getD 1 "") with
      | none => .error ("readCSV: error parsing " ++ row.getD 1 "" ++ " as float")
      | some lat =>
        match parseFloat (row.getD 2 "") with
        | none => .error ("readCSV: error parsing " ++ row.getD 2 "" ++ " as float")
        | some lng =>
          let itemURL := row.getD 3 ""
          match parseStringArray (row.getD 4 "") with
          | none => .error ("readCSV: error parsing " ++ row.getD 4 "" ++ " as []string")
          | some imgURLs => .ok ⟨itemName, ⟨lat, lng⟩, itemURL, imgURLs⟩

/-- The loop of `readCSV`: on the first failing read result return the items
accumulated so far together with the error, otherwise append and continue. -/
def readCSVAux : List ReadResult → List Item → Option (List Item) × Option String
  | [], acc => (some acc, none)
  | x :: xs, acc =>
    match stepParse x with
    | .error m => (some acc, some m)
    | .ok it => readCSVAux xs (acc ++ [it])

/-- `readCSV` from src/dump.go: parse every row until EOF, fail fast. -/
def readCSV (input : List ReadResult) : Option (List Item) × Option String :=
  readCSVAux input []

/-- Modelled from the spec: re-serialization of a record as one tabular row
(name, latitude, longitude, url, image list). -/
def printItem (it : Item) : List String :=
  [it.itemName, printFloat it.location.lat, printFloat it.location.lon,
    it.itemURL, printStringArray it.imgURLs]

/-! ## The ranked query — `search` in src/db.go (latest revision)

The builder calls of `elastic.NewFunctionScoreQuery`, `NewMultiMatchQuery`
and `NewGaussDecayFunction` are embedded as plain records of the parameters
the code passes. -/

/-- `elastic.NewMultiMatchQuery(searchTerm, fields...)`. -/
structure MultiMatchQuery where
  query : String
  fields : List String
deriving DecidableEq, Repr

/-- `elastic.NewGaussDecayFunction().FieldName(...).Origin(...).Offset(...).Scale(...)`. -/
structure GaussDecayFunction where
  fieldName : String
  origin : Location
  offset : String
  scale : String
deriving DecidableEq, Repr

/-- `elastic.NewFunctionScoreQuery()` with its query, score functions and
score mode. -/
structure FunctionScoreQuery where
  query : MultiMatchQuery
  scoreFuncs : List GaussDecayFunction
  scoreMode : String
deriving DecidableEq, Repr

/-- `db.client.Search().Index(db.index).Query(q).Size(20)`. -/
structure SearchRequest where
  index : String
  query : FunctionScoreQuery
  size : ℕ
deriving DecidableEq, Repr

/-- The function-score query `search` builds (src/db.go): a multi-match of
the search term over the text fields name, url and img_urls, one gauss decay
score function on the location field with origin at the query's coordinate,
offset "5km" and scale "10km", combined by multiplication. -/
def buildSearchQuery (searchTerm : String) (loc : Location) : FunctionScoreQuery :=
  { query := { query := searchTerm, fields := ["name", "url", "img_urls"] }
    scoreFuncs := [{ fieldName := "location", origin := loc, offset := "5km", scale := "10km" }]
    scoreMode := "multiply" }

/-- The request `search` issues: the built query against the db's index,
capped at 20 hits. -/
def searchRequest (index searchTerm : String) (loc : Location) : SearchRequest :=
  { index := index, query := buildSearchQuery searchTerm loc, size := 20 }

/-- The store's reply to a search request: a transport error, or the list of
hit sources in ranked order, each either unmarshalling to an item or not. -/
abbrev SearchOutcome := Except String (List (Option Item))

/-- `search`'s result loop: unmarshal each hit source, returning the items
decoded so far together with the error when one fails. -/
def decodeHits : List (Option Item) → List Item → Option (List Item) × Option String
  | [], acc => (some acc, none)
  | none :: _, acc => (some acc, some "search: error unmarshalling search query result")
  | some it :: rest, acc => decodeHits rest (acc ++ [it])

/-- `search` from src/db.go: build the query, execute it against the store,
decode the hits. `items = make([]item, 0)` makes the result slice non-nil on
every path. -/
def search (index searchTerm : String) (loc : Location)
    (store : SearchRequest → SearchOutcome) : Option (List Item) × Option String :=
  match store (searchRequest index searchTerm loc) with
  | .error e => (some [], some ("search: error executing search query: " ++ e))
  | .ok hits => decodeHits hits []

/-! ## The HTTP gateway — `ServeHTTP` in src/endpoint.go -/

/-- JSON rendering of a location, matching the struct's json tags. -/
def locationJSON (l : Location) : String :=
  "\x7b\"lat\":" ++ printFloat l.lat ++ ",\"lon\":" ++ printFloat l.lon ++ "\x7d"

/-- JSON rendering of an item, matching the latest revision's json tags
(name, location, url, img_urls); string escaping is elided as in the JSON
fragment modelled throughout. -/
def itemJSON (it : Item) : String :=
  "\x7b\"name\":" ++ jstr it.itemName ++ ",\"location\":" ++ locationJSON it.location ++
    ",\"url\":" ++ jstr it.itemURL ++ ",\"img_urls\":" ++ printStringArray it.imgURLs ++ "\x7d"

/-- The comma-separated element list of the encoded item array. -/
def encodeElems : List Item → String
  | [] => ""
  | [it] => itemJSON it
  | it :: rest => itemJSON it ++ "," ++ encodeElems rest

/-- `json.NewEncoder(w).Encode(items)` on the possibly-nil item slice: Go
renders a nil slice as null and any non-nil slice as an array. -/
def encodeItems : Option (List Item) → String
  | none => "null"
  | some l => "[" ++ encodeElems l ++ "]"

/-- What the handler wrote: the status code, the body when one was written,
and the searches it invoked on the ranking engine. -/
structure HTTPResult where
  status : ℕ
  body : Option String
  searchCalls : List (String × Location)
deriving DecidableEq, Repr

/-- `ServeHTTP` from src/endpoint.go: only GET, only the /search path, lat
and lng must parse as floats; then the db search runs with the searchTerm
query parameter as given, a search failure is a 500, and otherwise the item
slice is encoded as the 200 response body. -/
def serveHTTP (method path searchTermParam latParam lngParam : String)
    (index : String) (store : SearchRequest → SearchOutcome) : HTTPResult :=
  if method ≠ "GET" then ⟨405, none, []⟩
  else if path ≠ "/search" then ⟨404, none, []⟩
  else
    match parseFloat latParam with
    | none => ⟨400, none, []⟩
    | some lat =>
      match parseFloat lngParam with
      | none => ⟨400, none, []⟩
      | some lng =>
        let res := search index searchTermParam ⟨lat, lng⟩ store
        match res.2 with
        | some _ => ⟨500, none, [(searchTermParam, ⟨lat, lng⟩)]⟩
        | none => ⟨200, some (encodeItems res.1), [(searchTermParam, ⟨lat, lng⟩)]⟩

/-! ## The index replacement protocol — `replaceIndex` and `bulkInsertItems`
in src/db.go

The Elasticsearch client's answers to each call are an explicit oracle
(`StoreConn`), and the calls the code performs are returned as a trace. -/

/-- An acknowledgement response, `res.Acknowledged`. -/
structure AckResponse where
  acknowledged : Bool
deriving DecidableEq, Repr

/-- A bulk response, `bulkResponse.Errors`. -/
structure BulkResponse where
  errors : Bool
deriving DecidableEq, Repr

/-- The store's answers to the protocol's calls: the index-exists check, the
delete, the create, the bulk insert and the refresh. A `none` response
models Go's nil response pointer. -/
structure StoreConn where
  existsResult : Bool
  existsErr : Option String
  deleteResp : Option AckResponse
  deleteErr : Option String
  createResp : Option AckResponse
  createErr : Option String
  bulkResp : Option BulkResponse
  bulkErr : Option String
  refreshErr : Option String
deriving DecidableEq, Repr

/-- `elastic.NewBulkIndexRequest().Index(index).Type("item").Id(id).Doc(doc)`. -/
structure BulkIndexRequest where
  index : String
  docType : String
  id : String
  doc : Item
deriving DecidableEq, Repr

/-- The store calls the protocol can perform, in the order performed. -/
inductive StoreOp where
  | indexExists
  | deleteIndex
  | createIndex
  | bulkDo (reqs : List BulkIndexRequest)
  | refresh
deriving DecidableEq, Repr

/-- The bulk request list `bulkInsertItems` builds: every item under the
db's index with type "item" and its position rendered by `strconv.Itoa` as
the document id. -/
def bulkRequests (index : String) (items : List Item) : List BulkIndexRequest :=
  items.enum.map fun p => ⟨index, "item", natStr p.1, p.2⟩

/-- `res, err := call.Do(ctx)` followed by Go's
`if res == nil || !res.Acknowledged { err = unackMsg }`: the error the code
goes on to test. -/
def ackCheck (resp : Option AckResponse) (doErr : Option String) (unackMsg : String) :
    Option String :=
  match resp with
  | none => some unackMsg
  | some r => if !r.acknowledged then some unackMsg else doErr

/-- Go's `bulkResponse != nil && bulkResponse.Errors`: the response reports
document errors. -/
def bulkHadErrors (c : StoreConn) : Bool :=
  match c.bulkResp with
  | some r => r.errors
  | none => false

/-- `bulkInsertItems` from src/db.go: send the bulk request; fail on a
transport error or when the response reports document errors; then refresh
the index so documents are instantly searchable, failing on a refresh error. -/
def bulkInsertItems (c : StoreConn) (index : String) (items : List Item) :
    Except String Unit × List StoreOp :=
  let reqs := bulkRequests index items
  match c.bulkErr with
  | some e => (.error ("bulkInsertItems: couldn't do bulk insert: " ++ e), [.bulkDo reqs])
  | none =>
    if bulkHadErrors c then
      (.error "bulkInsertItems: bulk insert had errors", [.bulkDo reqs])
    else
      match c.refreshErr with
      | some e => (.error ("bulkInsertItems: index refresh had error: " ++ e),
          [.bulkDo reqs, .refresh])
      | none => (.ok (), [.bulkDo reqs, .refresh])

/-- `replaceIndex` from src/db.go: check existence, delete the index when it
exists (an unacknowledged delete is an error), create it fresh (an
unacknowledged create is an error), then bulk insert. -/
def replaceIndex (c : StoreConn) (index : String) (items : List Item) :
    Except String Unit × List StoreOp :=
  match c.existsErr with
  | some e => (.error ("replaceIndex: couldn't check if index exists: " ++ e), [.indexExists])
  | none =>
    let opsHead : List StoreOp :=
      if c.existsResult then [.indexExists, .deleteIndex] else [.indexExists]
    let delErr : Option String :=
      if c.existsResult then
        ackCheck c.deleteResp c.deleteErr ("DeleteIndex(" ++ index ++ ") wasn't acknowledged by ES")
      else none
    match delErr with
    | some e => (.error ("replaceIndex: couldn't delete index: " ++ e), opsHead)
    | none =>
      match ackCheck c.createResp c.createErr
          ("CreateIndex(" ++ index ++ ") wasn't acknowledged by ES") with
      | some e => (.error ("replaceIndex: couldn't create index: " ++ e), opsHead ++ [.createIndex])
      | none =>
        let r := bulkInsertItems c index items
        (r.1, opsHead ++ [.createIndex] ++ r.2)

/-! ## The scoring substrate, modelled from the spec

The composite score and its ordering live inside Elasticsearch; the spec
specifies them as the interface the core consumes. -/

/-- Modelled from the spec: the sigma of the gauss decay curve is chosen so
that the weight at offset + scale is one half. -/
noncomputable def sigmaSq (scale : ℝ) : ℝ := scale ^ 2 / (2 * Real.log 2)

/-- Modelled from the spec: the gaussian decay weight — full weight up to
the offset, then a gaussian fall-off in the distance beyond it. -/
noncomputable def esGaussWeight (offset scale d : ℝ) : ℝ :=
  if d ≤ offset then 1 else Real.exp (-((d - offset) ^ 2) / (2 * sigmaSq scale))

/-- Modelled from the spec: the full-text match substrate returns a
non-negative per-field relevance score; the multi-match's document score is
the best score over the queried fields. -/
def textRelevance (score : String → ℚ) (fields : List String) : ℚ :=
  (fields.map score).foldr max 0

/-- Modelled from the spec: the store returns hits ordered by descending
composite score (ties in its natural order, insertion sort being stable). -/
def rankHits (hits : List (Item × ℚ)) : List (Item × ℚ) :=
  hits.insertionSort fun a b => b.2 ≤ a.2

/-- Modelled from the spec: executing a search request returns the ranked
hits capped at the request's size. -/
def executeSearch (req : SearchRequest) (hits : List (Item × ℚ)) : List (Item × ℚ) :=
  (rankHits hits).take req.size

/-! ## Digit and numeral lemmas -/

theorem digitChar_isDigit {d : ℕ} (h : d < 10) : (digitChar d).isDigit = true := by
  interval_cases d <;> decide

theorem digitChar_val {d : ℕ} (h : d < 10) : (digitChar d).toNat - 48 = d := by
  interval_cases d <;> decide

theorem natCharsAux_eq : ∀ (fuel n : ℕ), n ≤ fuel →
    natCharsAux fuel n = ((Nat.digits 10 n).map digitChar)
  | 0, 0, _ => by simp [natCharsAux]
  | 0, _ + 1, h => absurd h (by omega)
  | fuel + 1, n, h => by
    by_cases hn : n = 0
    · subst hn; simp [natCharsAux]
    · have hdiv := Nat.div_lt_self (Nat.pos_of_ne_zero hn) (by norm_num : 1 < 10)
      rw [natCharsAux, if_neg hn,
        Nat.digits_def' (by norm_num : 1 < 10) (Nat.pos_of_ne_zero hn), List.map_cons]
      congr 1
      exact natCharsAux_eq fuel (n / 10) (by omega)

theorem natChars_all_digit {n : ℕ} : ∀ c ∈ natChars n, c.isDigit = true := by
  intro c hc
  unfold natChars at hc
  by_cases hn : n = 0
  · rw [if_pos hn] at hc
    simp only [List.mem_singleton] at hc
    subst hc; decide
  · rw [if_neg hn, natCharsAux_eq n n le_rfl, List.mem_reverse, List.mem_map] at hc
    obtain ⟨d, hd, rfl⟩ := hc
    exact digitChar_isDigit (Nat.digits_lt_base (by norm_num) hd)

theorem natChars_ne_nil (n : ℕ) : natChars n ≠ [] := by
  unfold natChars
  by_cases hn : n = 0
  · simp [hn]
  · rw [if_neg hn, natCharsAux_eq n n le_rfl]
    simp [hn, Nat.digits_ne_nil_iff_ne_zero]

theorem digitsVal_natChars (n : ℕ) : digitsVal (natChars n) = n := by
  by_cases hn : n = 0
  · subst hn; decide
  · unfold natChars digitsVal
    rw [if_neg hn, natCharsAux_eq n n le_rfl, List.map_reverse, List.reverse_reverse,
      List.map_map]
    have hmap : (Nat.digits 10 n).map ((fun c => c.toNat - 48) ∘ digitChar) =
        (Nat.digits 10 n).map id := by
      apply List.map_congr_left
      intro d hd
      exact digitChar_val (Nat.digits_lt_base (by norm_num) hd)
    rw [hmap, List.map_id]
    exact Nat.ofDigits_digits 10 n

/-! ## takeWhile and dropWhile over an all-satisfying block -/

theorem takeWhile_append_all {p : Char → Bool} {ds rest : List Char}
    (h : ∀ c ∈ ds, p c = true) :
    (ds ++ rest).takeWhile p = ds ++ rest.takeWhile p := by
  induction ds with
  | nil => simp
  | cons c t ih =>
    have hc := h c (List.mem_cons_self c t)
    simp [List.takeWhile_cons, hc, ih fun x hx => h x (List.mem_cons_of_mem c hx)]

theorem dropWhile_append_all {p : Char → Bool} {ds rest : List Char}
    (h : ∀ c ∈ ds, p c = true) :
    (ds ++ rest).dropWhile p = rest.dropWhile p := by
  induction ds with
  | nil => simp
  | cons c t ih =>
    have hc := h c (List.mem_cons_self c t)
    simp [List.dropWhile_cons, hc, ih fun x hx => h x (List.mem_cons_of_mem c hx)]

theorem isDigit_ne_plus {c : Char} (h : c.isDigit = true) : c ≠ '+' := by
  intro rfl_eq; subst rfl_eq; exact absurd h (by decide)

theorem isDigit_ne_minus {c : Char} (h : c.isDigit = true) : c ≠ '-' := by
  intro rfl_eq; subst rfl_eq; exact absurd h (by decide)

theorem parseSign_of_head_digit {c : Char} {t : List Char} (h : c.isDigit = true) :
    parseSign (c :: t) = (false, c :: t) := by
  simp [parseSign, isDigit_ne_plus h, isDigit_ne_minus h]

/-! ## The decimal round trip -/

theorem printFloat_data (d : Dec) : (printFloat d).data =
    (if d.m < 0 then ['-'] else []) ++ natChars d.m.natAbs ++
      'e' :: ((if d.e < 0 then ['-'] else []) ++ natChars d.e.natAbs) := by
  unfold printFloat intStr natStr
  by_cases h1 : d.m < 0 <;> by_cases h2 : d.e < 0 <;>
    simp [h1, h2, String.data_append]

theorem parseMantissa_digits_e {ds tail : List Char} (hne : ds ≠ [])
    (hd : ∀ c ∈ ds, c.isDigit = true) :
    parseMantissa (ds ++ 'e' :: tail) = some ((digitsVal ds, 0), 'e' :: tail) := by
  unfold parseMantissa
  have ht : (ds ++ 'e' :: tail).takeWhile Char.isDigit = ds := by
    rw [takeWhile_append_all hd]
    simp [List.takeWhile_cons]
  have hdrop : (ds ++ 'e' :: tail).dropWhile Char.isDigit = 'e' :: tail := by
    rw [dropWhile_append_all hd]
    simp [List.dropWhile_cons]
  rw [ht, hdrop]
  simp [List.isEmpty_iff, hne]

theorem parseExp_digits {P : Prop} [Decidable P] {ds : List Char} (hne : ds ≠ [])
    (hd : ∀ c ∈ ds, c.isDigit = true) :
    parseExp ('e' :: ((if P then ['-'] else []) ++ ds)) =
      some (if P then -(digitsVal ds : ℤ) else (digitsVal ds : ℤ)) := by
  have ht : ds.takeWhile Char.isDigit = ds := List.takeWhile_eq_self_iff.mpr hd
  have hdrop : ds.dropWhile Char.isDigit = [] := List.dropWhile_eq_nil_iff.mpr hd
  by_cases hP : P
  · rw [if_pos hP, if_pos hP]
    have hsgn : parseSign (['-'] ++ ds) = (true, ds) := rfl
    simp only [parseExp, if_pos (Or.inl rfl : 'e' = 'e' ∨ 'e' = 'E'), hsgn, ht, hdrop]
    simp [List.isEmpty_iff, hne]
  · rw [if_neg hP, if_neg hP, List.nil_append]
    obtain ⟨c, t, heq⟩ := List.exists_cons_of_ne_nil hne
    have hcd : c.isDigit = true := hd c (by rw [heq]; exact List.mem_cons_self c t)
    have hsgn : parseSign ds = (false, ds) := by
      rw [heq]; exact parseSign_of_head_digit hcd
    simp only [parseExp, if_pos (Or.inl rfl : 'e' = 'e' ∨ 'e' = 'E'), hsgn, ht, hdrop]
    simp [List.isEmpty_iff, hne]

theorem parseFloat_printFloat (d : Dec) : parseFloat (printFloat d) = some d := by
  have hsgn : parseSign (printFloat d).data =
      (decide (d.m < 0), natChars d.m.natAbs ++
        'e' :: ((if d.e < 0 then ['-'] else []) ++ natChars d.e.natAbs)) := by
    rw [printFloat_data, List.append_assoc]
    by_cases h1 : d.m < 0
    · rw [if_pos h1, decide_eq_true h1]
      simp [parseSign]
    · rw [if_neg h1, decide_eq_false h1, List.nil_append]
      obtain ⟨c, t, heq⟩ := List.exists_cons_of_ne_nil (natChars_ne_nil d.m.natAbs)
      have hcd : c.isDigit = true :=
        natChars_all_digit c (by rw [heq]; exact List.mem_cons_self c t)
      rw [heq, List.cons_append, parseSign_of_head_digit hcd]
  unfold parseFloat
  rw [hsgn]
  dsimp only
  rw [parseMantissa_digits_e (natChars_ne_nil _) natChars_all_digit]
  dsimp only [Option.bind]
  rw [parseExp_digits (natChars_ne_nil _) natChars_all_digit]
  dsimp only [Option.map]
  simp only [digitsVal_natChars]
  obtain ⟨m, e⟩ := d
  simp only [Option.some.injEq, Dec.mk.injEq]
  dsimp only
  constructor
  · by_cases h1 : m < 0
    · rw [decide_eq_true h1, if_pos rfl]
      omega
    · rw [decide_eq_false h1, if_neg Bool.false_ne_true]
      omega
  · by_cases h2 : e < 0
    · rw [if_pos h2]
      simp only [Nat.cast_zero]
      omega
    · rw [if_neg h2]
      simp only [Nat.cast_zero]
      omega

/-! ## The JSON string-array round trip -/

theorem jstr_data (s : String) : (jstr s).data = '"' :: (s.data ++ ['"']) := by
  simp [jstr, String.data_append]

theorem parseJStr_print {s : String} (hs : ∀ c ∈ s.data, c ≠ '"') (rest : List Char) :
    parseJStr ('"' :: (s.data ++ '"' :: rest)) = some (s, rest) := by
  have hp : ∀ c ∈ s.data, (c != '"') = true := by
    intro c hc
    simpa using hs c hc
  simp only [parseJStr]
  rw [takeWhile_append_all hp, dropWhile_append_all hp]
  simp [List.takeWhile_cons, List.dropWhile_cons]

theorem parseJStr_quote_free {cs : List Char} {s : String} {rest : List Char}
    (h : parseJStr cs = some (s, rest)) : ∀ c ∈ s.data, c ≠ '"' := by
  unfold parseJStr at h
  split at h
  · dsimp only at h
    split at h
    · injection h with h
      injection h with h1 h2
      subst h1
      intro c hc
      have := List.mem_takeWhile_imp hc
      simpa using this
    · cases h
  · cases h

theorem parseJElems_quote_free : ∀ {fuel : ℕ} {cs : List Char} {l : List String},
    parseJElems fuel cs = some l → ∀ s ∈ l, ∀ c ∈ s.data, c ≠ '"'
  | 0, cs, l, h => by simp [parseJElems] at h
  | fuel + 1, cs, l, h => by
    unfold parseJElems at h
    split at h
    · cases h
    · next s0 rest hstr =>
      split at h
      · split at h
        · injection h with h
          subst h
          intro x hx
          rw [List.mem_singleton] at hx
          subst hx
          exact parseJStr_quote_free hstr
        · cases h
      · split at h
        · cases h
        · next l2 htail =>
          injection h with h
          subst h
          intro x hx
          rcases List.mem_cons.mp hx with hx | hx
          · subst hx; exact parseJStr_quote_free hstr
          · exact parseJElems_quote_free htail x hx
      · cases h


theorem printElems_cons_data (s s2 : String) (rest : List String) :
    (printElems (s :: s2 :: rest)).data =
      '"' :: (s.data ++ '"' :: ',' :: (printElems (s2 :: rest)).data) := by
  simp [printElems, jstr, String.data_append]

theorem parseJElems_print : ∀ (fuel : ℕ) (l : List String), l ≠ [] →
    (∀ s ∈ l, ∀ c ∈ s.data, c ≠ '"') → l.length ≤ fuel →
    parseJElems fuel ((printElems l).data ++ [']']) = some l
  | 0, l, hne, _, hlen => by
    cases l with
    | nil => exact absurd rfl hne
    | cons s t => simp at hlen
  | fuel + 1, [], hne, _, _ => absurd rfl hne
  | fuel + 1, [s], hne, hq, hlen => by
    have hs : ∀ c ∈ s.data, c ≠ '"' := hq s (List.mem_singleton_self s)
    have hdata : (printElems [s]).data ++ [']'] = '"' :: (s.data ++ '"' :: [']']) := by
      simp [printElems, jstr, String.data_append]
    rw [hdata]
    unfold parseJElems
    rw [parseJStr_print hs]
    simp
  | fuel + 1, s :: s2 :: rest, hne, hq, hlen => by
    have hs : ∀ c ∈ s.data, c ≠ '"' := hq s (List.mem_cons_self s (s2 :: rest))
    have hdata : (printElems (s :: s2 :: rest)).data ++ [']'] =
        '"' :: (s.data ++ '"' :: (',' :: ((printElems (s2 :: rest)).data ++ [']']))) := by
      rw [printElems_cons_data]
      simp
    rw [hdata]
    unfold parseJElems
    rw [parseJStr_print hs]
    have hlen2 : (s2 :: rest).length ≤ fuel := by
      simp at hlen ⊢
      omega
    have ih := parseJElems_print fuel (s2 :: rest) (by simp)
        (fun x hx => hq x (List.mem_cons_of_mem s hx)) hlen2
    simp [ih]

theorem length_le_printElems : ∀ (l : List String), l.length ≤ (printElems l).data.length
  | [] => by simp [printElems]
  | [s] => by
    simp [printElems, jstr, String.data_append]
  | s :: s2 :: rest => by
    have ih := length_le_printElems (s2 :: rest)
    rw [printElems_cons_data]
    simp at ih ⊢
    omega

theorem printStringArray_data (l : List String) :
    (printStringArray l).data = '[' :: ((printElems l).data ++ [']']) := by
  simp [printStringArray, String.data_append]

theorem parseStringArray_print {l : List String}
    (hq : ∀ s ∈ l, ∀ c ∈ s.data, c ≠ '"') :
    parseStringArray (printStringArray l) = some l := by
  unfold parseStringArray
  rw [printStringArray_data]
  cases l with
  | nil => simp [printElems]
  | cons s t =>
    have hhead : ∃ tl, (printElems (s :: t)).data = '"' :: tl := by
      cases t with
      | nil => exact ⟨s.data ++ ['"'], by simp [printElems, jstr, String.data_append]⟩
      | cons s2 rest => exact ⟨_, printElems_cons_data s s2 rest⟩
    obtain ⟨tl, htl⟩ := hhead
    have hlen : (s :: t).length ≤ ((printElems (s :: t)).data ++ [']']).length := by
      have := length_le_printElems (s :: t)
      simp at this ⊢
      omega
    have happ := parseJElems_print (((printElems (s :: t)).data ++ [']']).length) (s :: t)
        (by simp) hq hlen
    have hr : (printElems (s :: t)).data ++ [']'] = '"' :: (tl ++ [']']) := by
      rw [htl, List.cons_append]
    rw [hr] at happ ⊢
    simpa using happ


/-! ## Ingestion lemmas -/

theorem parseStringArray_quote_free {s : String} {l : List String}
    (h : parseStringArray s = some l) : ∀ x ∈ l, ∀ c ∈ x.data, c ≠ '"' := by
  unfold parseStringArray at h
  split at h
  · split at h
    · split at h
      · injection h with h
        subst h
        intro x hx
        exact absurd hx (List.not_mem_nil x)
      · cases h
    · exact parseJElems_quote_free h
  · cases h

theorem stepParse_ok {n la lo u im : String} {a b : Dec} {imgs : List String}
    (hla : parseFloat la = some a) (hlo : parseFloat lo = some b)
    (him : parseStringArray im = some imgs) :
    stepParse (.ok [n, la, lo, u, im]) = .ok ⟨n, ⟨a, b⟩, u, imgs⟩ := by
  simp [stepParse, hla, hlo, him]

theorem stepParse_ok_inv {r : ReadResult} {it : Item} (h : stepParse r = .ok it) :
    ∃ n la lo u im, r = .ok [n, la, lo, u, im] ∧
      it.itemName = n ∧ parseFloat la = some it.location.lat ∧
      parseFloat lo = some it.location.lon ∧ it.itemURL = u ∧
      parseStringArray im = some it.imgURLs := by
  cases r with
  | error e => simp [stepParse] at h
  | ok row =>
    simp only [stepParse] at h
    split at h
    · cases h
    · rename_i hlen
      have h5 : row.length = 5 := by
        simp at hlen
        exact hlen
      obtain ⟨n, la, lo, u, im, rfl⟩ : ∃ n la lo u im, row = [n, la, lo, u, im] := by
        match row, h5 with
        | [n, la, lo, u, im], _ => exact ⟨n, la, lo, u, im, rfl⟩
      simp only [List.getD_cons_succ, List.getD_cons_zero] at h
      split at h
      · cases h
      · rename_i a hla
        split at h
        · cases h
        · rename_i b hlo
          split at h
          · cases h
          · rename_i imgs him
            injection h with h
            subst h
            exact ⟨n, la, lo, u, im, rfl, rfl, hla, hlo, rfl, him⟩

theorem stepParse_printItem {r : ReadResult} {it : Item} (h : stepParse r = .ok it) :
    stepParse (.ok (printItem it)) = .ok it := by
  obtain ⟨n, la, lo, u, im, hr, hn, hla, hlo, hu, him⟩ := stepParse_ok_inv h
  have hq : ∀ x ∈ it.imgURLs, ∀ c ∈ x.data, c ≠ '"' := parseStringArray_quote_free him
  obtain ⟨nm, ⟨la2, lo2⟩, url2, imgs2⟩ := it
  rw [printItem]
  exact stepParse_ok (parseFloat_printFloat _) (parseFloat_printFloat _)
    (parseStringArray_print hq)

def okItem (x : ReadResult) : Option Item :=
  match stepParse x with
  | .ok it => some it
  | .error _ => none

theorem readCSVAux_all_ok : ∀ (input : List ReadResult) (acc : List Item),
    (∀ x ∈ input, ∃ it, stepParse x = .ok it) →
    readCSVAux input acc = (some (acc ++ input.filterMap okItem), none)
  | [], acc, _ => by simp [readCSVAux]
  | x :: xs, acc, h => by
    obtain ⟨it, hit⟩ := h x (List.mem_cons_self x xs)
    have ih := readCSVAux_all_ok xs (acc ++ [it])
      fun y hy => h y (List.mem_cons_of_mem x hy)
    simp only [readCSVAux, hit, ih]
    simp [List.filterMap_cons, okItem, hit]

theorem readCSVAux_failfast : ∀ (pre : List ReadResult) (acc : List Item)
    (r : ReadResult) (rest : List ReadResult) (m : String),
    (∀ x ∈ pre, ∃ it, stepParse x = .ok it) → stepParse r = .error m →
    readCSVAux (pre ++ r :: rest) acc = (some (acc ++ pre.filterMap okItem), some m)
  | [], acc, r, rest, m, _, hr => by
    simp [readCSVAux, hr]
  | x :: pre, acc, r, rest, m, h, hr => by
    obtain ⟨it, hit⟩ := h x (List.mem_cons_self x pre)
    have ih := readCSVAux_failfast pre (acc ++ [it]) r rest m
      (fun y hy => h y (List.mem_cons_of_mem x hy)) hr
    simp only [List.cons_append, readCSVAux, hit, List.append_eq]
    rw [ih]
    simp [List.filterMap_cons, okItem, hit, List.append_assoc]

theorem readCSV_failfast {pre : List ReadResult} {r : ReadResult}
    {rest : List ReadResult} {m : String}
    (h : ∀ x ∈ pre, ∃ it, stepParse x = .ok it) (hr : stepParse r = .error m) :
    readCSV (pre ++ r :: rest) = (some (pre.filterMap okItem), some m) := by
  rw [readCSV, readCSVAux_failfast pre [] r rest m h hr]
  simp

theorem readCSV_all_ok {input : List ReadResult}
    (h : ∀ x ∈ input, ∃ it, stepParse x = .ok it) :
    readCSV input = (some (input.filterMap okItem), none) := by
  rw [readCSV, readCSVAux_all_ok input [] h]
  simp


/-! ## Search decoding lemmas -/

theorem decodeHits_all_ok : ∀ (hits : List (Option Item)) (acc : List Item),
    (∀ x ∈ hits, x.isSome = true) →
    decodeHits hits acc = (some (acc ++ hits.filterMap id), none)
  | [], acc, _ => by simp [decodeHits]
  | none :: rest, acc, h => by
    have := h none (List.mem_cons_self none rest)
    simp at this
  | some it :: rest, acc, h => by
    have ih := decodeHits_all_ok rest (acc ++ [it])
      fun y hy => h y (List.mem_cons_of_mem _ hy)
    simp only [decodeHits, ih]
    simp [List.append_assoc]

theorem decodeHits_failfast : ∀ (pre : List Item) (rest : List (Option Item))
    (acc : List Item),
    decodeHits (pre.map some ++ none :: rest) acc =
      (some (acc ++ pre), some "search: error unmarshalling search query result")
  | [], rest, acc => by simp [decodeHits]
  | it :: pre, rest, acc => by
    have ih := decodeHits_failfast pre rest (acc ++ [it])
    simp only [List.map_cons, List.cons_append, decodeHits, List.append_eq]
    rw [ih]
    simp [List.append_assoc]

theorem decodeHits_no_err : ∀ (hits : List (Option Item)) (acc : List Item),
    (decodeHits hits acc).2 = none → ∀ x ∈ hits, x.isSome = true
  | [], _, _ => by simp
  | none :: rest, acc, h => by simp [decodeHits] at h
  | some it :: rest, acc, h => by
    intro x hx
    rcases List.mem_cons.mp hx with rfl | hx
    · rfl
    · exact decodeHits_no_err rest (acc ++ [it]) h x hx

/-! ## Scoring lemmas -/

theorem esGaussWeight_within {offset scale d : ℝ} (h : d ≤ offset) :
    esGaussWeight offset scale d = 1 := by
  unfold esGaussWeight
  exact if_pos h

theorem esGaussWeight_pos (offset scale d : ℝ) : 0 < esGaussWeight offset scale d := by
  unfold esGaussWeight
  split
  · norm_num
  · exact Real.exp_pos _

theorem esGaussWeight_half : esGaussWeight 5 10 15 = 1 / 2 := by
  unfold esGaussWeight sigmaSq
  rw [if_neg (by norm_num)]
  have hlog : Real.log 2 ≠ 0 := ne_of_gt (Real.log_pos one_lt_two)
  have harg : -((15 - 5 : ℝ) ^ 2) / (2 * ((10 : ℝ) ^ 2 / (2 * Real.log 2))) = -Real.log 2 := by
    field_simp
    ring
  rw [harg, Real.exp_neg, Real.exp_log (by norm_num : (0 : ℝ) < 2)]
  norm_num

theorem le_foldr_max {q : ℚ} : ∀ {l : List ℚ}, q ∈ l → q ≤ l.foldr max 0
  | [], h => absurd h (List.not_mem_nil q)
  | x :: t, h => by
    simp only [List.foldr_cons]
    rcases List.mem_cons.mp h with rfl | h
    · exact le_max_left _ _
    · exact le_trans (le_foldr_max h) (le_max_right _ _)

theorem textRelevance_pos {score : String → ℚ} {fields : List String} {f : String}
    (hf : f ∈ fields) (hpos : 0 < score f) : 0 < textRelevance score fields := by
  unfold textRelevance
  exact lt_of_lt_of_le hpos (le_foldr_max (List.mem_map_of_mem score hf))

instance : IsTotal (Item × ℚ) fun a b => b.2 ≤ a.2 := ⟨fun a b => le_total b.2 a.2⟩

instance : IsTrans (Item × ℚ) fun a b => b.2 ≤ a.2 := ⟨fun _ _ _ h1 h2 => le_trans h2 h1⟩

theorem executeSearch_sorted (req : SearchRequest) (hits : List (Item × ℚ)) :
    List.Sorted (fun a b => b.2 ≤ a.2) (executeSearch req hits) := by
  unfold executeSearch rankHits
  exact (List.sorted_insertionSort _ hits).sublist (List.take_sublist _ _)

theorem executeSearch_length (req : SearchRequest) (hits : List (Item × ℚ)) :
    (executeSearch req hits).length ≤ req.size := by
  unfold executeSearch
  exact le_trans (List.length_take_le _ _) le_rfl

/-! ## Store protocol lemmas -/

def unacknowledged (resp : Option AckResponse) : Bool :=
  match resp with
  | none => true
  | some r => !r.acknowledged

theorem ackCheck_of_unack (resp : Option AckResponse) (doErr : Option String)
    (msg : String) (h : unacknowledged resp = true) : ackCheck resp doErr msg = some msg := by
  cases resp with
  | none => rfl
  | some r =>
    simp [unacknowledged] at h
    simp [ackCheck, h]

theorem ackCheck_eq_none (resp : Option AckResponse) (doErr : Option String)
    (msg : String) :
    ackCheck resp doErr msg = none ↔ unacknowledged resp = false ∧ doErr = none := by
  cases resp with
  | none => simp [ackCheck, unacknowledged]
  | some r =>
    cases hr : r.acknowledged <;> simp [ackCheck, unacknowledged, hr]

theorem bulkRequests_ids (index : String) (items : List Item) :
    (bulkRequests index items).map (fun r => r.id) = (List.range items.length).map natStr := by
  unfold bulkRequests
  rw [List.map_map]
  have h2 : ((fun r : BulkIndexRequest => r.id) ∘ fun p : ℕ × Item =>
      (⟨index, "item", natStr p.1, p.2⟩ : BulkIndexRequest)) = natStr ∘ Prod.fst := rfl
  rw [h2, ← List.map_map, List.enum_map_fst]

theorem bulkRequests_docs (index : String) (items : List Item) :
    (bulkRequests index items).map (fun r => r.doc) = items := by
  unfold bulkRequests
  rw [List.map_map]
  have h2 : ((fun r : BulkIndexRequest => r.doc) ∘ fun p : ℕ × Item =>
      (⟨index, "item", natStr p.1, p.2⟩ : BulkIndexRequest)) = Prod.snd := rfl
  rw [h2, List.enum_map_snd]


/-! ## Protocol characterization lemmas -/

theorem bulkInsertItems_ok_iff (c : StoreConn) (index : String) (items : List Item) :
    (bulkInsertItems c index items).1 = .ok () ↔
      c.bulkErr = none ∧ bulkHadErrors c = false ∧ c.refreshErr = none := by
  cases hbe : c.bulkErr with
  | some e => simp [bulkInsertItems, hbe]
  | none =>
    cases hb : bulkHadErrors c with
    | true => simp [bulkInsertItems, hbe, hb]
    | false =>
      cases hre : c.refreshErr <;> simp [bulkInsertItems, hbe, hb, hre]

theorem bulkInsertItems_errors (c : StoreConn) (index : String) (items : List Item)
    (hbe : c.bulkErr = none) (hb : bulkHadErrors c = true) :
    (bulkInsertItems c index items).1 = .error "bulkInsertItems: bulk insert had errors" ∧
    (bulkInsertItems c index items).2 = [.bulkDo (bulkRequests index items)] := by
  constructor <;> simp [bulkInsertItems, hbe, hb]

theorem delMsg_not_none {c : StoreConn} {index : String} {m : String}
    (hdel : ackCheck c.deleteResp c.deleteErr
      ("DeleteIndex(" ++ index ++ ") wasn't acknowledged by ES") = some m) :
    ¬(unacknowledged c.deleteResp = false ∧ c.deleteErr = none) := by
  intro hh
  have := (ackCheck_eq_none c.deleteResp c.deleteErr
    ("DeleteIndex(" ++ index ++ ") wasn't acknowledged by ES")).mpr hh
  rw [hdel] at this
  cases this

theorem createMsg_not_none {c : StoreConn} {index : String} {m : String}
    (hcr : ackCheck c.createResp c.createErr
      ("CreateIndex(" ++ index ++ ") wasn't acknowledged by ES") = some m) :
    ¬(unacknowledged c.createResp = false ∧ c.createErr = none) := by
  intro hh
  have := (ackCheck_eq_none c.createResp c.createErr
    ("CreateIndex(" ++ index ++ ") wasn't acknowledged by ES")).mpr hh
  rw [hcr] at this
  cases this

theorem replaceIndex_ok_iff (c : StoreConn) (index : String) (items : List Item) :
    (replaceIndex c index items).1 = .ok () ↔
      c.existsErr = none ∧
      (c.existsResult = true →
        unacknowledged c.deleteResp = false ∧ c.deleteErr = none) ∧
      unacknowledged c.createResp = false ∧ c.createErr = none ∧
      c.bulkErr = none ∧ bulkHadErrors c = false ∧ c.refreshErr = none := by
  cases hexE : c.existsErr with
  | some e =>
    constructor
    · intro hok
      exact absurd hok (by simp [replaceIndex, hexE])
    · rintro ⟨h, -⟩
      cases h
  | none =>
    cases hexR : c.existsResult with
    | true =>
      cases hdel : ackCheck c.deleteResp c.deleteErr
          ("DeleteIndex(" ++ index ++ ") wasn't acknowledged by ES") with
      | some m =>
        constructor
        · intro hok
          exact absurd hok (by simp [replaceIndex, hexE, hexR, hdel])
        · rintro ⟨-, hdelOK, -, -, -, -, -⟩
          exact absurd (hdelOK rfl) (delMsg_not_none hdel)
      | none =>
        have hdel2 := (ackCheck_eq_none c.deleteResp c.deleteErr
          ("DeleteIndex(" ++ index ++ ") wasn't acknowledged by ES")).mp hdel
        cases hcr : ackCheck c.createResp c.createErr
            ("CreateIndex(" ++ index ++ ") wasn't acknowledged by ES") with
        | some m =>
          constructor
          · intro hok
            exact absurd hok (by simp [replaceIndex, hexE, hexR, hdel, hcr])
          · rintro ⟨-, -, hu, hc, -, -, -⟩
            exact absurd ⟨hu, hc⟩ (createMsg_not_none hcr)
        | none =>
          have hcr2 := (ackCheck_eq_none c.createResp c.createErr
            ("CreateIndex(" ++ index ++ ") wasn't acknowledged by ES")).mp hcr
          have heq : (replaceIndex c index items).1 = (bulkInsertItems c index items).1 := by
            simp [replaceIndex, hexE, hexR, hdel, hcr]
          rw [heq, bulkInsertItems_ok_iff]
          constructor
          · rintro ⟨hbe, hb, hre⟩
            exact ⟨rfl, fun _ => hdel2, hcr2.1, hcr2.2, hbe, hb, hre⟩
          · rintro ⟨-, -, -, -, hbe, hb, hre⟩
            exact ⟨hbe, hb, hre⟩
    | false =>
      cases hcr : ackCheck c.createResp c.createErr
          ("CreateIndex(" ++ index ++ ") wasn't acknowledged by ES") with
      | some m =>
        constructor
        · intro hok
          exact absurd hok (by simp [replaceIndex, hexE, hexR, hcr])
        · rintro ⟨-, -, hu, hc, -, -, -⟩
          exact absurd ⟨hu, hc⟩ (createMsg_not_none hcr)
      | none =>
        have hcr2 := (ackCheck_eq_none c.createResp c.createErr
          ("CreateIndex(" ++ index ++ ") wasn't acknowledged by ES")).mp hcr
        have heq : (replaceIndex c index items).1 = (bulkInsertItems c index items).1 := by
          simp [replaceIndex, hexE, hexR, hcr]
        rw [heq, bulkInsertItems_ok_iff]
        constructor
        · rintro ⟨hbe, hb, hre⟩
          refine ⟨rfl, fun htr => ?_, hcr2.1, hcr2.2, hbe, hb, hre⟩
          cases htr
        · rintro ⟨-, -, -, -, hbe, hb, hre⟩
          exact ⟨hbe, hb, hre⟩

theorem replaceIndex_delete_unack (c : StoreConn) (index : String) (items : List Item)
    (hexE : c.existsErr = none) (hexR : c.existsResult = true)
    (hun : unacknowledged c.deleteResp = true) :
    (∃ e, (replaceIndex c index items).1 = .error e) ∧
    (replaceIndex c index items).2 = [.indexExists, .deleteIndex] := by
  have hdel := ackCheck_of_unack c.deleteResp c.deleteErr
    ("DeleteIndex(" ++ index ++ ") wasn't acknowledged by ES") hun
  refine ⟨⟨"replaceIndex: couldn't delete index: " ++
    ("DeleteIndex(" ++ index ++ ") wasn't acknowledged by ES"), ?_⟩, ?_⟩ <;>
    simp [replaceIndex, hexE, hexR, hdel]

theorem replaceIndex_create_unack (c : StoreConn) (index : String) (items : List Item)
    (hexE : c.existsErr = none) (hun : unacknowledged c.createResp = true) :
    (∃ e, (replaceIndex c index items).1 = .error e) ∧
    ∀ reqs, StoreOp.bulkDo reqs ∉ (replaceIndex c index items).2 := by
  have hcr := ackCheck_of_unack c.createResp c.createErr
    ("CreateIndex(" ++ index ++ ") wasn't acknowledged by ES") hun
  cases hexR : c.existsResult with
  | true =>
    cases hdel : ackCheck c.deleteResp c.deleteErr
        ("DeleteIndex(" ++ index ++ ") wasn't acknowledged by ES") with
    | some m =>
      refine ⟨⟨"replaceIndex: couldn't delete index: " ++ m, ?_⟩, ?_⟩
      · simp [replaceIndex, hexE, hexR, hdel]
      · intro reqs
        simp [replaceIndex, hexE, hexR, hdel]
    | none =>
      refine ⟨⟨"replaceIndex: couldn't create index: " ++
        ("CreateIndex(" ++ index ++ ") wasn't acknowledged by ES"), ?_⟩, ?_⟩
      · simp [replaceIndex, hexE, hexR, hdel, hcr]
      · intro reqs
        simp [replaceIndex, hexE, hexR, hdel, hcr]
  | false =>
    refine ⟨⟨"replaceIndex: couldn't create index: " ++
      ("CreateIndex(" ++ index ++ ") wasn't acknowledged by ES"), ?_⟩, ?_⟩
    · simp [replaceIndex, hexE, hexR, hcr]
    · intro reqs
      simp [replaceIndex, hexE, hexR, hcr]

theorem replaceIndex_ok_trace (c : StoreConn) (index : String) (items : List Item)
    (hok : (replaceIndex c index items).1 = .ok ()) :
    (replaceIndex c index items).2 =
      (if c.existsResult then [StoreOp.indexExists, StoreOp.deleteIndex]
        else [StoreOp.indexExists]) ++
      [StoreOp.createIndex, StoreOp.bulkDo (bulkRequests index items), StoreOp.refresh] := by
  obtain ⟨hexE, hdel, hcru, hcre, hbe, hb, hre⟩ := (replaceIndex_ok_iff c index items).mp hok
  have hc := (ackCheck_eq_none c.createResp c.createErr
    ("CreateIndex(" ++ index ++ ") wasn't acknowledged by ES")).mpr ⟨hcru, hcre⟩
  cases hexR : c.existsResult with
  | true =>
    obtain ⟨hdu, hde⟩ := hdel hexR
    have hd := (ackCheck_eq_none c.deleteResp c.deleteErr
      ("DeleteIndex(" ++ index ++ ") wasn't acknowledged by ES")).mpr ⟨hdu, hde⟩
    simp [replaceIndex, hexE, hexR, hd, hc, bulkInsertItems, hbe, hb, hre]
  | false =>
    simp [replaceIndex, hexE, hexR, hc, bulkInsertItems, hbe, hb, hre]


/-! ## Slice non-nilness helpers -/

theorem decodeHits_isSome : ∀ (hits : List (Option Item)) (acc : List Item),
    (decodeHits hits acc).1.isSome = true
  | [], _ => rfl
  | none :: _, _ => rfl
  | some it :: rest, acc => decodeHits_isSome rest (acc ++ [it])

theorem search_isSome (index searchTerm : String) (loc : Location)
    (store : SearchRequest → SearchOutcome) :
    (search index searchTerm loc store).1.isSome = true := by
  cases hstore : store (searchRequest index searchTerm loc) with
  | error e => simp [search, hstore]
  | ok hits =>
    have := decodeHits_isSome hits []
    simp [search, hstore, this]

theorem readCSVAux_isSome : ∀ (input : List ReadResult) (acc : List Item),
    (readCSVAux input acc).1.isSome = true
  | [], _ => rfl
  | x :: xs, acc => by
    cases hstep : stepParse x with
    | error m => simp [readCSVAux, hstep]
    | ok it =>
      have := readCSVAux_isSome xs (acc ++ [it])
      simpa [readCSVAux, hstep] using this

theorem encodeItems_some_ne_null (l : List Item) : encodeItems (some l) ≠ "null" := by
  intro h
  have hd := congrArg String.data h
  simp only [encodeItems] at hd
  simp [String.data_append] at hd

theorem serveHTTP_body_not_null (method path st la ln index : String)
    (store : SearchRequest → SearchOutcome) :
    (serveHTTP method path st la ln index store).body ≠ some "null" := by
  unfold serveHTTP
  split
  · simp
  · split
    · simp
    · cases hla : parseFloat la with
      | none => simp
      | some a =>
        cases hln : parseFloat ln with
        | none => simp
        | some b =>
          obtain ⟨l, hl⟩ : ∃ l, (search index st ⟨a, b⟩ store).1 = some l := by
            have := search_isSome index st ⟨a, b⟩ store
            cases hr : (search index st ⟨a, b⟩ store).1 with
            | none => rw [hr] at this; cases this
            | some l => exact ⟨l, rfl⟩
          cases hs : (search index st ⟨a, b⟩ store).2 with
          | some e => simp [hs]
          | none =>
            simp only [hs, hl]
            intro hbody
            injection hbody with hbody
            exact encodeItems_some_ne_null l hbody


/-! ## The claims -/

/-- Claim C1: for every search, the geographic weight applied to a record is a
gaussian decay of its distance from the query origin configured with offset
5km and scale 10km: the query `search` issues carries exactly one gauss decay
score function, on the location field with origin at the query coordinate,
offset "5km" and scale "10km", combined with the text score by multiplication;
the decay curve gives every record within 5 km full weight 1, weight 1/2 at
15 km, and a strictly positive weight at every distance. -/
theorem search_gauss_decay_spec (index searchTerm : String) (loc : Location) :
    (searchRequest index searchTerm loc).query.scoreFuncs =
      [{ fieldName := "location", origin := loc, offset := "5km", scale := "10km" }] ∧
    (searchRequest index searchTerm loc).query.scoreMode = "multiply" ∧
    (∀ d : ℝ, d ≤ 5 → esGaussWeight 5 10 d = 1) ∧
    esGaussWeight 5 10 15 = 1 / 2 ∧
    ∀ d : ℝ, 0 < esGaussWeight 5 10 d :=
  ⟨rfl, rfl, fun _ hd => esGaussWeight_within hd, esGaussWeight_half,
    fun d => esGaussWeight_pos 5 10 d⟩

/-- Claim C2: the textual relevance is computed over all three text fields of
a record — name, url and img_urls: the multi-match query `search` issues
lists exactly those fields, and under the spec's model of the match substrate
a record whose only positive per-field score is on img_urls still has a
positive text score, hence a positive composite score at every distance. -/
theorem search_text_fields_spec (index searchTerm : String) (loc : Location) :
    (searchRequest index searchTerm loc).query.query.fields = ["name", "url", "img_urls"] ∧
    (searchRequest index searchTerm loc).query.query.query = searchTerm ∧
    ∀ score : String → ℚ, 0 < score "img_urls" →
      0 < textRelevance score (searchRequest index searchTerm loc).query.query.fields ∧
      ∀ d : ℝ,
        0 < (textRelevance score (searchRequest index searchTerm loc).query.query.fields : ℝ) *
          esGaussWeight 5 10 d := by
  refine ⟨rfl, rfl, fun score hpos => ?_⟩
  have htext : 0 < textRelevance score ["name", "url", "img_urls"] :=
    textRelevance_pos (by simp) hpos
  exact ⟨htext, fun d =>
    mul_pos (by exact_mod_cast htext) (esGaussWeight_pos 5 10 d)⟩

/-- Claim C3: replace succeeds only when every protocol step succeeded — the
characterization of success, and the three failure cases: an unacknowledged
delete of an existing catalog errors before create/bulk/refresh run, an
unacknowledged create errors before any bulk insert runs, and a bulk response
reporting document errors errors before the refresh runs. -/
theorem replace_protocol_spec (c : StoreConn) (index : String) (items : List Item) :
    ((replaceIndex c index items).1 = .ok () ↔
      c.existsErr = none ∧
      (c.existsResult = true →
        unacknowledged c.deleteResp = false ∧ c.deleteErr = none) ∧
      unacknowledged c.createResp = false ∧ c.createErr = none ∧
      c.bulkErr = none ∧ bulkHadErrors c = false ∧ c.refreshErr = none) ∧
    (c.existsErr = none → c.existsResult = true → unacknowledged c.deleteResp = true →
      (∃ e, (replaceIndex c index items).1 = .error e) ∧
      (replaceIndex c index items).2 = [.indexExists, .deleteIndex]) ∧
    (c.existsErr = none → unacknowledged c.createResp = true →
      (∃ e, (replaceIndex c index items).1 = .error e) ∧
      ∀ reqs, StoreOp.bulkDo reqs ∉ (replaceIndex c index items).2) ∧
    (c.bulkErr = none → bulkHadErrors c = true →
      (∃ e, (bulkInsertItems c index items).1 = .error e) ∧
      StoreOp.refresh ∉ (bulkInsertItems c index items).2) := by
  refine ⟨replaceIndex_ok_iff c index items,
    fun hexE hexR hun => replaceIndex_delete_unack c index items hexE hexR hun,
    fun hexE hun => replaceIndex_create_unack c index items hexE hun,
    fun hbe hb => ⟨⟨_, (bulkInsertItems_errors c index items hbe hb).1⟩, ?_⟩⟩
  rw [(bulkInsertItems_errors c index items hbe hb).2]
  simp

/-- Claim C4: during a single replace pass the bulk insert assigns document
ids as consecutive integers rendered from 0 in input order, with record i as
the document of request i, and the synchronous refresh (publish) is performed
whenever the bulk insert — and so the whole replace — returns success. -/
theorem bulk_ids_refresh_spec (c : StoreConn) (index : String) (items : List Item) :
    (bulkRequests index items).map (fun r => r.id) = (List.range items.length).map natStr ∧
    (bulkRequests index items).map (fun r => r.doc) = items ∧
    ((bulkInsertItems c index items).1 = .ok () →
      (bulkInsertItems c index items).2 = [.bulkDo (bulkRequests index items), .refresh]) ∧
    ((replaceIndex c index items).1 = .ok () →
      StoreOp.refresh ∈ (replaceIndex c index items).2) := by
  refine ⟨bulkRequests_ids index items, bulkRequests_docs index items, ?_, ?_⟩
  · intro hok
    obtain ⟨hbe, hb, hre⟩ := (bulkInsertItems_ok_iff c index items).mp hok
    simp [bulkInsertItems, hbe, hb, hre]
  · intro hok
    rw [replaceIndex_ok_trace c index items hok]
    cases c.existsResult <;> simp

/-- Claim C5: the request `search` issues caps the hit count at 20, and the
store's ranked reply — modelled from the spec as the stable descending sort of
the scored hits cut to the requested size — has at most 20 records and is
sorted by non-increasing composite score, ties resolved only by the store's
natural order. -/
theorem search_shaping_spec (index searchTerm : String) (loc : Location)
    (scored : List (Item × ℚ)) :
    (searchRequest index searchTerm loc).size = 20 ∧
    (executeSearch (searchRequest index searchTerm loc) scored).length ≤ 20 ∧
    List.Sorted (fun a b => b.2 ≤ a.2)
      (executeSearch (searchRequest index searchTerm loc) scored) :=
  ⟨rfl, executeSearch_length (searchRequest index searchTerm loc) scored,
    executeSearch_sorted (searchRequest index searchTerm loc) scored⟩

/-- Claim C6 (code bug): the handler in src/endpoint.go performs no searchTerm
validation. At the failing input GET /search?searchTerm=&lat=51&lng=0 — the
exact input of the repository's own test "empty search term returns Bad
Request", which expects 400 — the handler invokes the ranking engine with the
empty term and answers 200 with a JSON array body. -/
theorem serveHTTP_empty_term_code_bug :
    serveHTTP "GET" "/search" "" "51" "0" "item" (fun _ => .ok []) =
      ⟨200, some "[]", [("", ⟨⟨51, 0⟩, ⟨0, 0⟩⟩)]⟩ := by
  decide

/-- Claim C7 as stated is false at this input: when the store's reply holds
one decodable hit followed by an undecodable one, `search` returns the error
together with the one decoded record — an error with a non-empty list. -/
theorem search_error_partial_counterexample :
    ((search "item" "x" ⟨⟨0, 0⟩, ⟨0, 0⟩⟩ fun _ =>
      .ok [some ⟨"camera", ⟨⟨51, 0⟩, ⟨0, 0⟩⟩, "london/camera", []⟩, none]).2.isSome = true) ∧
    ((search "item" "x" ⟨⟨0, 0⟩, ⟨0, 0⟩⟩ fun _ =>
      .ok [some ⟨"camera", ⟨⟨51, 0⟩, ⟨0, 0⟩⟩, "london/camera", []⟩, none]).1 ≠ some []) := by
  constructor
  · decide
  · decide

/-- Claim C7 amended: when the query execution fails, `search` returns the
wrapped error with the empty list; when decoding hit k + 1 fails, it returns
the wrapped error together with the k records decoded before it; and whenever
`search` returns without error its list is exactly the decoded hits — it
never returns results while omitting an error that occurred. -/
theorem search_failure_modes_spec (index searchTerm : String) (loc : Location)
    (store : SearchRequest → SearchOutcome) :
    (∀ e, store (searchRequest index searchTerm loc) = .error e →
      search index searchTerm loc store =
        (some [], some ("search: error executing search query: " ++ e))) ∧
    (∀ (pre : List Item) (rest : List (Option Item)),
      store (searchRequest index searchTerm loc) = .ok (pre.map some ++ none :: rest) →
      search index searchTerm loc store =
        (some pre, some "search: error unmarshalling search query result")) ∧
    ((search index searchTerm loc store).2 = none →
      ∃ hits, store (searchRequest index searchTerm loc) = .ok hits ∧
        (∀ x ∈ hits, x.isSome = true) ∧
        search index searchTerm loc store = (some (hits.filterMap id), none)) := by
  refine ⟨?_, ?_, ?_⟩
  · intro e he
    simp [search, he]
  · intro pre rest hok
    simp only [search, hok]
    simpa using decodeHits_failfast pre rest []
  · intro hnone
    cases hstore : store (searchRequest index searchTerm loc) with
    | error e =>
      rw [show search index searchTerm loc store =
        (some [], some ("search: error executing search query: " ++ e)) from by
          simp [search, hstore]] at hnone
      cases hnone
    | ok hits =>
      have hdec : (decodeHits hits []).2 = none := by
        have : search index searchTerm loc store = decodeHits hits [] := by
          simp [search, hstore]
        rw [this] at hnone
        exact hnone
      have hall := decodeHits_no_err hits [] hdec
      refine ⟨hits, rfl, hall, ?_⟩
      have := decodeHits_all_ok hits [] hall
      simp [search, hstore, this]

/-- Claim C8: `readCSV` validates rows in order, stops at the first invalid
read result (reader error, wrong field count, unparsable latitude or
longitude, or unparsable image list, per `stepParse`), and returns both the
records parsed from the rows before the failing one and that row's error. -/
theorem readCSV_failfast_spec (pre : List ReadResult) (r : ReadResult)
    (rest : List ReadResult) (m : String)
    (hpre : ∀ x ∈ pre, ∃ it, stepParse x = .ok it)
    (hr : stepParse r = .error m) :
    readCSV (pre ++ r :: rest) = (some (pre.filterMap okItem), some m) :=
  readCSV_failfast hpre hr

/-- Witness for C8 at a concrete dump: the first row parses, the second has
an unparsable latitude, the third is never reached. -/
theorem readCSV_failfast_spec_witness :
    readCSV [.ok ["camera", "51", "0", "london/camera", "[]"],
      .ok ["x", "bad", "0", "u", "[]"], .ok ["y", "1", "2", "u", "[]"]] =
      (some [⟨"camera", ⟨⟨51, 0⟩, ⟨0, 0⟩⟩, "london/camera", []⟩],
        some "readCSV: error parsing bad as float") := by
  have h := readCSV_failfast_spec [.ok ["camera", "51", "0", "london/camera", "[]"]]
    (.ok ["x", "bad", "0", "u", "[]"]) [.ok ["y", "1", "2", "u", "[]"]]
    "readCSV: error parsing bad as float"
    (by
      intro x hx
      rw [List.mem_singleton] at hx
      subst hx
      exact ⟨_, rfl⟩)
    rfl
  exact h.trans (by decide)

/-- Claim C9: a record built from a valid row preserves the row's name,
latitude and longitude (exactly, as the decimals the numerals denote), url
and image references in order, and re-serializing the record parses back to
the very same record. -/
theorem parse_preserves_row_spec (row : List String) (it : Item)
    (h : stepParse (.ok row) = .ok it) :
    row.getD 0 "" = it.itemName ∧
    parseFloat (row.getD 1 "") = some it.location.lat ∧
    parseFloat (row.getD 2 "") = some it.location.lon ∧
    row.getD 3 "" = it.itemURL ∧
    parseStringArray (row.getD 4 "") = some it.imgURLs ∧
    stepParse (.ok (printItem it)) = .ok it := by
  obtain ⟨n, la, lo, u, im, hre, hn, hla, hlo, hu, him⟩ := stepParse_ok_inv h
  injection hre with hre
  subst hre
  refine ⟨?_, ?_, ?_, ?_, ?_, stepParse_printItem h⟩ <;>
    simp [List.getD_cons_zero, List.getD_cons_succ, hn, hla, hlo, hu, him]

/-- Witness for C9 at a concrete row. -/
theorem parse_preserves_row_spec_witness :
    parseFloat "51" =
      some (⟨"camera", ⟨⟨51, 0⟩, ⟨0, 0⟩⟩, "london/camera", ["a.jpg"]⟩ : Item).location.lat ∧
    stepParse (.ok (printItem ⟨"camera", ⟨⟨51, 0⟩, ⟨0, 0⟩⟩, "london/camera", ["a.jpg"]⟩)) =
      .ok ⟨"camera", ⟨⟨51, 0⟩, ⟨0, 0⟩⟩, "london/camera", ["a.jpg"]⟩ := by
  have h := parse_preserves_row_spec
    ["camera", "51", "0", "london/camera", "[\"a.jpg\"]"]
    ⟨"camera", ⟨⟨51, 0⟩, ⟨0, 0⟩⟩, "london/camera", ["a.jpg"]⟩ rfl
  exact ⟨h.2.1, h.2.2.2.2.2⟩

/-- Claim C10: `search` always returns a non-nil (possibly empty) item slice,
`readCSV` returns the non-nil empty slice on empty input and a non-nil slice
always, the gateway's encoder renders only the nil slice as null, every
non-nil slice as an array, and so no handler response body is ever the JSON
null. -/
theorem nonnil_slices_spec (index searchTerm : String) (loc : Location)
    (store : SearchRequest → SearchOutcome) (input : List ReadResult)
    (method path st la ln : String) :
    (search index searchTerm loc store).1.isSome = true ∧
    readCSV [] = (some [], none) ∧
    (readCSV input).1.isSome = true ∧
    encodeItems none = "null" ∧
    (∀ l : List Item, encodeItems (some l) = "[" ++ (encodeElems l ++ "]") ∧
      encodeItems (some l) ≠ "null") ∧
    (serveHTTP method path st la ln index store).body ≠ some "null" :=
  ⟨search_isSome index searchTerm loc store, rfl, readCSVAux_isSome input [],
    rfl,
    fun l => ⟨by rw [encodeItems, String.append_assoc], encodeItems_some_ne_null l⟩,
    serveHTTP_body_not_null method path st la ln index store⟩

end Fl
